import Mathlib

/-!
Shallow embedding of the MAVLink-v2-style frame encoder of this repository.

The repository contains two encoder variants with near-identical packet
construction code:
  * `src/mavlink_parser.py`, class `SimpleMAVLinkGenerator` — the "plain"
    variant, whose CRC loop is inlined in `create_mavlink_packet`;
  * `src/random scripts/mavlink_parser.py`, class `MAVLinkSender` — the
    "seeded" variant, with a named `calculate_crc(data, crc_extra)` and a
    `get_standard_crc_extra` table.

The CRC inner loop (xor the byte shifted left 8 into the register, then 8
shift/xor rounds masked to 16 bits) is verbatim-identical in the two files;
it is embedded once below (`crcRound`, `crcRounds`, `crcStep`) and shared by
both variants, exactly as the duplicated Python text is shared.
-/

/-- One round of the CRC inner loop, from the Python
`if crc & 0x8000: crc = (crc << 1) ^ 0x1021 else: crc = crc << 1; crc &= 0xFFFF`. -/
def crcRound (r : Nat) : Nat :=
  (if r &&& 0x8000 ≠ 0 then (r <<< 1) ^^^ 0x1021 else r <<< 1) &&& 0xFFFF

/-- Iterate: `crcRounds n r` applies `crcRound` `n` times (the Python `for _ in range(8)`). -/
def crcRounds : Nat → Nat → Nat
  | 0, r => r
  | n + 1, r => crcRounds n (crcRound r)

/-- Absorb one byte into the register: `crc ^= byte << 8` followed by 8 rounds. -/
def crcStep (r b : Nat) : Nat :=
  crcRounds 8 (r ^^^ (b <<< 8))

/-- The plain variant's inlined checksum (`src/mavlink_parser.py`, lines 216-224):
register starts at 0xFFFF and absorbs each data byte in order. -/
def crcPlain (data : List Nat) : Nat :=
  data.foldl crcStep 0xFFFF

/-- Mask by 0xFF is reduction mod 256. -/
theorem and_mask8 (x : Nat) : x &&& 0xFF = x % 256 := by
  have h := Nat.and_pow_two_sub_one_eq_mod x 8
  norm_num at h
  exact h

/-- Mask by 0xFFFF is reduction mod 65536. -/
theorem and_mask16 (x : Nat) : x &&& 0xFFFF = x % 65536 := by
  have h := Nat.and_pow_two_sub_one_eq_mod x 16
  norm_num at h
  exact h

/-- The high-bit test of the CRC loop, arithmetically, for 16-bit registers. -/
theorem crc_highbit (r : Nat) (h : r < 65536) : (r &&& 0x8000 ≠ 0) ↔ 32768 ≤ r := by
  rw [show (0x8000 : Nat) = 2 ^ 15 by norm_num, Nat.and_two_pow]
  cases htb : r.testBit 15 with
  | false =>
    rw [Nat.testBit_to_div_mod] at htb
    simp only [decide_eq_false_iff_not] at htb
    simp only [Bool.toNat_false, Nat.zero_mul, ne_eq, not_true_eq_false, false_iff]
    norm_num at htb ⊢
    omega
  | true =>
    rw [Nat.testBit_to_div_mod] at htb
    simp only [decide_eq_true_eq] at htb
    simp only [Bool.toNat_true, Nat.one_mul, ne_eq]
    norm_num at htb ⊢
    omega

/-- Arithmetic characterization of one CRC round on a 16-bit register. -/
theorem crcRound_eq (r : Nat) (h : r < 65536) :
    crcRound r = if 32768 ≤ r then (2 * r - 65536) ^^^ 4129 else 2 * r := by
  unfold crcRound
  by_cases hhi : 32768 ≤ r
  · rw [if_pos ((crc_highbit r h).mpr hhi), if_pos hhi, Nat.and_xor_distrib_right,
      and_mask16, and_mask16, Nat.shiftLeft_eq]
    have h1 : r * 2 ^ 1 % 65536 = 2 * r - 65536 := by omega
    have h2 : (4129 : Nat) % 65536 = 4129 := by norm_num
    rw [h1, h2]
  · rw [if_neg (fun hc => hhi ((crc_highbit r h).mp hc)), if_neg hhi, and_mask16,
      Nat.shiftLeft_eq]
    omega

/-- A CRC round always leaves the register below 2^16. -/
theorem crcRound_lt (r : Nat) : crcRound r < 65536 := by
  unfold crcRound
  have h := Nat.and_le_right
    (n := if r &&& 0x8000 ≠ 0 then (r <<< 1) ^^^ 0x1021 else r <<< 1) (m := 0xFFFF)
  omega

/-- One CRC round is injective on 16-bit registers. -/
theorem crcRound_inj (r1 r2 : Nat) (h1 : r1 < 65536) (h2 : r2 < 65536)
    (he : crcRound r1 = crcRound r2) : r1 = r2 := by
  rw [crcRound_eq r1 h1, crcRound_eq r2 h2] at he
  by_cases c1 : 32768 ≤ r1 <;> by_cases c2 : 32768 ≤ r2
  · rw [if_pos c1, if_pos c2] at he
    have hx := congrArg (fun z => z ^^^ 4129) he
    simp only [Nat.xor_assoc, Nat.xor_self, Nat.xor_zero] at hx
    omega
  · rw [if_pos c1, if_neg c2] at he
    have hodd : ((2 * r1 - 65536) ^^^ 4129) % 2 = 1 := by
      rw [Nat.xor_mod_two_eq_one]
      intro hiff
      have := hiff.mpr (by norm_num)
      omega
    omega
  · rw [if_neg c1, if_pos c2] at he
    have hodd : ((2 * r2 - 65536) ^^^ 4129) % 2 = 1 := by
      rw [Nat.xor_mod_two_eq_one]
      intro hiff
      have := hiff.mpr (by norm_num)
      omega
    omega
  · rw [if_neg c1, if_neg c2] at he
    omega

/-- Any positive number of CRC rounds lands in the 16-bit range. -/
theorem crcRounds_lt (n r : Nat) : crcRounds (n + 1) r < 65536 := by
  induction n generalizing r with
  | zero => exact crcRound_lt r
  | succ m ih => exact ih (crcRound r)

/-- Iterated CRC rounds are injective on 16-bit registers. -/
theorem crcRounds_inj (n : Nat) : ∀ r1 r2, r1 < 65536 → r2 < 65536 →
    crcRounds n r1 = crcRounds n r2 → r1 = r2 := by
  induction n with
  | zero => intro r1 r2 _ _ he; exact he
  | succ m ih =>
    intro r1 r2 h1 h2 he
    exact crcRound_inj r1 r2 h1 h2 (ih _ _ (crcRound_lt r1) (crcRound_lt r2) he)

/-- Absorbing a byte always leaves the register in 16-bit range. -/
theorem crcStep_lt (r b : Nat) : crcStep r b < 65536 :=
  crcRounds_lt 7 (r ^^^ (b <<< 8))

/-- The per-byte CRC update is injective in the register state. -/
theorem crcStep_inj (r1 r2 b : Nat) (h1 : r1 < 65536) (h2 : r2 < 65536) (hb : b < 256)
    (he : crcStep r1 b = crcStep r2 b) : r1 = r2 := by
  have p16 : (2 : Nat) ^ 16 = 65536 := by norm_num
  have hshift : b <<< 8 < 2 ^ 16 := by
    rw [Nat.shiftLeft_eq, p16]
    omega
  have h1e : r1 < 2 ^ 16 := by rw [p16]; exact h1
  have h2e : r2 < 2 ^ 16 := by rw [p16]; exact h2
  have hx1 : r1 ^^^ (b <<< 8) < 65536 := by
    rw [← p16]
    exact Nat.xor_lt_two_pow h1e hshift
  have hx2 : r2 ^^^ (b <<< 8) < 65536 := by
    rw [← p16]
    exact Nat.xor_lt_two_pow h2e hshift
  have hxe := crcRounds_inj 8 _ _ hx1 hx2 he
  have hc := congrArg (fun z => z ^^^ (b <<< 8)) hxe
  simpa only [Nat.xor_assoc, Nat.xor_self, Nat.xor_zero] using hc

/-- Folding the per-byte update over a byte list is injective in the seed register. -/
theorem crcFold_inj (data : List Nat) (hd : ∀ x ∈ data, x < 256) :
    ∀ r1 r2, r1 < 65536 → r2 < 65536 →
      data.foldl crcStep r1 = data.foldl crcStep r2 → r1 = r2 := by
  induction data with
  | nil => intro r1 r2 _ _ he; exact he
  | cons b bs ih =>
    intro r1 r2 h1 h2 he
    simp only [List.foldl_cons] at he
    have hb : b < 256 := hd b (List.mem_cons_self b bs)
    have hd2 : ∀ x ∈ bs, x < 256 := fun x hx => hd x (List.mem_cons_of_mem b hx)
    exact crcStep_inj r1 r2 b h1 h2 hb
      (ih hd2 _ _ (crcStep_lt r1 b) (crcStep_lt r2 b) he)

/-!
Data model: message definitions, field specs and value maps, as consumed by
`create_mavlink_packet` in both Python variants.  A Python value in the data
dict is an integer or a string (the scripts only ever supply these to the
packer); `struct.pack` failures (wrong kind of value, out-of-range value) are
modelled as `none`.
-/

/-- A field of a message definition: the `(field_name, field_type)` pair that
`load_xml` collects from the schema. -/
structure FieldSpec where
  name : String
  ftype : String
deriving DecidableEq

/-- A message definition entry: `{'name': ..., 'fields': ...}`. -/
structure MsgInfo where
  name : String
  fields : List FieldSpec
deriving DecidableEq

/-- A value supplied for a field: a Python int or a Python string. -/
inductive PyVal where
  | int (i : Int)
  | str (s : String)
deriving DecidableEq

/-- The generator's data dict, `field name -> value`. -/
abbrev ValueMap := List (String × PyVal)

/-- The value used for a field: `value = data.get(field_name, 0)` — a missing
key silently yields the integer 0. -/
def getValue (data : ValueMap) (n : String) : PyVal :=
  (List.lookup n data).getD (PyVal.int 0)

/-- Python `str(value)`: decimal form for ints, the string itself otherwise. -/
def pyStr : PyVal → String
  | .int i => toString i
  | .str s => s

/-- Does `needle` occur at the head of the character list? -/
def charsStartWith : List Char → List Char → Bool
  | _, [] => true
  | [], _ :: _ => false
  | a :: as, b :: bs => a == b && charsStartWith as bs

/-- Does `needle` occur anywhere in the character list? -/
def charsHaveSub (needle : List Char) : List Char → Bool
  | [] => needle.isEmpty
  | c :: rest => charsStartWith (c :: rest) needle || charsHaveSub needle rest

/-- Python's `needle in hay` substring test on strings. -/
def strContains (hay needle : String) : Bool :=
  charsHaveSub needle.toList hay.toList

/-- One `struct` format character of the encoder's `elif` chain. -/
inductive Fmt where
  | B | b | H | h | I | i | Q | q | f | d | c
deriving DecidableEq

/-- The `elif` chain of `create_mavlink_packet` mapping a raw type string to a
`struct` format character, in source order; an unmatched string falls off the
end of the chain (`none`), which the source treats as a silent skip. -/
def matchFmt (t : String) : Option Fmt :=
  if strContains t "uint8" then some .B
  else if strContains t "int8" then some .b
  else if strContains t "uint16" then some .H
  else if strContains t "int16" then some .h
  else if strContains t "uint32" then some .I
  else if strContains t "int32" then some .i
  else if strContains t "uint64" then some .Q
  else if strContains t "int64" then some .q
  else if strContains t "float" then some .f
  else if strContains t "double" then some .d
  else if strContains t "char" then some .c
  else none

/-- Little-endian bytes of a natural number, `w` bytes wide. -/
def natLE : Nat → Nat → List Nat
  | 0, _ => []
  | w + 1, v => v % 256 :: natLE w (v / 256)

/-- Two's-complement little-endian encoding of an integer, `w` bytes wide
(what `struct.pack` emits for an in-range integer). -/
def intBytes (w : Nat) (i : Int) : List Nat :=
  natLE w (i.emod (2 ^ (8 * w))).toNat

/-- Packing via `struct.pack` of one integer format character: range-check (out of range
raises `struct.error`, caught by the source and turned into an aborted build),
then two's-complement little-endian bytes. -/
def packInt (lo hi : Int) (w : Nat) : PyVal → Option (List Nat)
  | .int i => if lo ≤ i ∧ i ≤ hi then some (intBytes w i) else none
  | .str _ => none

/-- Bit pattern of the IEEE-754 binary encoding of a Python integer converted
to a float of the given exponent/mantissa widths (round half to even; values
whose exponent overflows the format raise in Python and are `none` here). -/
def packFloatBits (exBits manBits : Nat) (i : Int) : Option Nat :=
  if i = 0 then some 0
  else
    let s : Nat := if i < 0 then 1 else 0
    let m := i.natAbs
    let e := Nat.log2 m
    let fe : Nat × Nat :=
      if e ≤ manBits then (m <<< (manBits - e) - 2 ^ manBits, e)
      else
        let sh := e - manBits
        let q := m >>> sh
        let r := m % 2 ^ sh
        let half := 2 ^ (sh - 1)
        let q2 := if half < r ∨ (r = half ∧ q % 2 = 1) then q + 1 else q
        if q2 = 2 ^ (manBits + 1) then (0, e + 1) else (q2 - 2 ^ manBits, e)
    let bias := 2 ^ (exBits - 1) - 1
    if 2 ^ exBits - 1 ≤ fe.2 + bias then none
    else some (s * 2 ^ (exBits + manBits) + (fe.2 + bias) * 2 ^ manBits + fe.1)

/-- IEEE-754 binary encoding of a Python integer converted to a float of the
given exponent/mantissa widths, as little-endian bytes: this models what
`struct.pack('f'/'d', v)` produces for the integer values the scripts feed
it. -/
def packFloat (exBits manBits : Nat) (i : Int) : Option (List Nat) :=
  (packFloatBits exBits manBits i).map (natLE ((1 + exBits + manBits) / 8))

/-- The source's char encoding, `bytes(str(value)[0], 'ascii')`: first
character of the string form; an empty string or a non-ASCII character raises
in Python and is `none` here. -/
def charByte (s : String) : Option (List Nat) :=
  match s.toList with
  | [] => none
  | ch :: _ => if ch.toNat < 128 then some [ch.toNat] else none

/-- Packing via `struct.pack` of a single value for each format character of the chain,
with the exact ranges `struct` enforces. -/
def packVal : Fmt → PyVal → Option (List Nat)
  | .B, v => packInt 0 255 1 v
  | .b, v => packInt (-128) 127 1 v
  | .H, v => packInt 0 65535 2 v
  | .h, v => packInt (-32768) 32767 2 v
  | .I, v => packInt 0 4294967295 4 v
  | .i, v => packInt (-2147483648) 2147483647 4 v
  | .Q, v => packInt 0 18446744073709551615 8 v
  | .q, v => packInt (-9223372036854775808) 9223372036854775807 8 v
  | .f, .int i => packFloat 8 23 i
  | .f, .str _ => none
  | .d, .int i => packFloat 11 52 i
  | .d, .str _ => none
  | .c, v => charByte (pyStr v)

/-- The bytes contributed by one field of the loop body: value lookup with
default 0, then the `elif` chain; an unmatched type contributes nothing. -/
def packField (f : FieldSpec) (data : ValueMap) : Option (List Nat) :=
  match matchFmt f.ftype with
  | none => some []
  | some fmt => packVal fmt (getValue data f.name)

/-- The whole payload: fields in declared order, concatenated; any `struct`
failure aborts the build (`except struct.error: return None`). -/
def packPayload : List FieldSpec → ValueMap → Option (List Nat)
  | [], _ => some []
  | f :: fs, data =>
    match packField f data, packPayload fs data with
    | some bs, some rest => some (bs ++ rest)
    | _, _ => none

/-- The generator object's persistent state: `system_id`, `component_id` and
the wrapping `sequence` counter. -/
structure GenState where
  system_id : Nat
  component_id : Nat
  sequence : Nat
deriving DecidableEq

/-- The 10-byte MAVLink 2 header assembled by both variants:
`struct.pack('<BBBBBBB', payload_len, 0, 0, seq, system_id, component_id,
message_id & 0xFF) + struct.pack('<H', (message_id >> 8) & 0xFFFF) + b'\x00'`. -/
def headerBytes (payload_len seq sys comp mid : Nat) : List Nat :=
  [payload_len, 0, 0, seq, sys, comp, mid &&& 0xFF]
    ++ natLE 2 ((mid >>> 8) &&& 0xFFFF) ++ [0]

namespace SimpleMAVLinkGenerator

/-- Embedding of `SimpleMAVLinkGenerator.create_mavlink_packet` of `src/mavlink_parser.py`:
packs the payload (a `struct.error` aborts with `None` before the sequence
advances), captures and advances the sequence, assembles the header (a byte
out of the `B` range there raises in Python, modelled as `none`), computes the
inlined plain CRC over `header[1:] + payload_bytes`, and emits
`b'\xFD' + header + payload + crc`. -/
def create_mavlink_packet (st : GenState) (message_id : Nat) (msg_info : MsgInfo)
    (data : ValueMap) : Option (List Nat) × GenState :=
  match packPayload msg_info.fields data with
  | none => (none, st)
  | some payload_bytes =>
    let payload_len := payload_bytes.length
    let seq := st.sequence
    let st2 : GenState := { st with sequence := (st.sequence + 1) &&& 0xFF }
    if payload_len ≤ 255 ∧ seq ≤ 255 ∧ st.system_id ≤ 255 ∧ st.component_id ≤ 255 then
      let header := headerBytes payload_len seq st.system_id st.component_id message_id
      let crc := crcPlain (header.drop 1 ++ payload_bytes)
      (some (0xFD :: header ++ payload_bytes ++ natLE 2 crc), st2)
    else (none, st2)

end SimpleMAVLinkGenerator

namespace MAVLinkSender

/-- Embedding of `MAVLinkSender.calculate_crc` of `src/random scripts/mavlink_parser.py`:
the register absorbs the `crc_extra` byte first, then the data bytes. -/
def calculate_crc (data : List Nat) (crc_extra : Nat) : Nat :=
  data.foldl crcStep (crcStep 0xFFFF crc_extra)

/-- Embedding of `MAVLinkSender.get_standard_crc_extra`: the fixed dict of well-known
message IDs, with `.get(message_id, 0)`. -/
def crc_extras : List (Nat × Nat) :=
  [(0, 50), (1, 124), (30, 39), (33, 104), (74, 142), (253, 83), (251, 170)]

/-- Dict lookup with default 0. -/
def get_standard_crc_extra (message_id : Nat) : Nat :=
  (List.lookup message_id crc_extras).getD 0

/-- The crc_extra dispatch of `MAVLinkSender.create_mavlink_packet`
(lines 209-214): table below 50000, derived from the ID at or above it. -/
def crcExtraOf (message_id : Nat) : Nat :=
  if message_id < 50000 then get_standard_crc_extra message_id
  else (message_id &&& 0xFF) ^^^ ((message_id >>> 8) &&& 0xFF)

/-- Embedding of `MAVLinkSender.create_mavlink_packet`: identical to the plain variant
except that the checksum is `calculate_crc(header[1:] + payload_bytes,
crc_extra)` with the dispatched crc_extra. -/
def create_mavlink_packet (st : GenState) (message_id : Nat) (msg_info : MsgInfo)
    (data : ValueMap) : Option (List Nat) × GenState :=
  match packPayload msg_info.fields data with
  | none => (none, st)
  | some payload_bytes =>
    let payload_len := payload_bytes.length
    let seq := st.sequence
    let st2 : GenState := { st with sequence := (st.sequence + 1) &&& 0xFF }
    if payload_len ≤ 255 ∧ seq ≤ 255 ∧ st.system_id ≤ 255 ∧ st.component_id ≤ 255 then
      let header := headerBytes payload_len seq st.system_id st.component_id message_id
      let crc := calculate_crc (header.drop 1 ++ payload_bytes) (crcExtraOf message_id)
      (some (0xFD :: header ++ payload_bytes ++ natLE 2 crc), st2)
    else (none, st2)

end MAVLinkSender

/-!
Supporting lemmas about the embedding.
-/

/-- The encoder `natLE` emits exactly `w` bytes. -/
theorem natLE_length (w : Nat) : ∀ v, (natLE w v).length = w := by
  induction w with
  | zero => intro v; rfl
  | succ n ih => intro v; simp [natLE, ih]

/-- The encoder `intBytes` emits exactly `w` bytes. -/
theorem intBytes_length (w : Nat) (i : Int) : (intBytes w i).length = w := by
  unfold intBytes
  exact natLE_length w _

/-- The assembled header is always 10 bytes. -/
theorem headerBytes_length (pl seq sys comp mid : Nat) :
    (headerBytes pl seq sys comp mid).length = 10 := by
  simp [headerBytes, natLE_length]

/-- Characterization of a successful plain-variant build. -/
theorem SMG_create_some (st : GenState) (mid : Nat) (msg : MsgInfo) (data : ValueMap)
    (payload : List Nat) (hp : packPayload msg.fields data = some payload)
    (hl : payload.length ≤ 255) (hs : st.sequence ≤ 255)
    (ha : st.system_id ≤ 255) (hb : st.component_id ≤ 255) :
    SimpleMAVLinkGenerator.create_mavlink_packet st mid msg data =
      (some (0xFD :: headerBytes payload.length st.sequence st.system_id st.component_id mid
          ++ payload
          ++ natLE 2 (crcPlain ((headerBytes payload.length st.sequence st.system_id
              st.component_id mid).drop 1 ++ payload))),
       { st with sequence := (st.sequence + 1) &&& 0xFF }) := by
  unfold SimpleMAVLinkGenerator.create_mavlink_packet
  rw [hp]
  exact if_pos ⟨hl, hs, ha, hb⟩

/-- Characterization of a successful seeded-variant build. -/
theorem MAV_create_some (st : GenState) (mid : Nat) (msg : MsgInfo) (data : ValueMap)
    (payload : List Nat) (hp : packPayload msg.fields data = some payload)
    (hl : payload.length ≤ 255) (hs : st.sequence ≤ 255)
    (ha : st.system_id ≤ 255) (hb : st.component_id ≤ 255) :
    MAVLinkSender.create_mavlink_packet st mid msg data =
      (some (0xFD :: headerBytes payload.length st.sequence st.system_id st.component_id mid
          ++ payload
          ++ natLE 2 (MAVLinkSender.calculate_crc
              ((headerBytes payload.length st.sequence st.system_id
                st.component_id mid).drop 1 ++ payload) (MAVLinkSender.crcExtraOf mid))),
       { st with sequence := (st.sequence + 1) &&& 0xFF }) := by
  unfold MAVLinkSender.create_mavlink_packet
  rw [hp]
  exact if_pos ⟨hl, hs, ha, hb⟩

/-!
Claim C5: the checksum equals the CRC-16 reference definition.
The reference below is written from the specification's words: 16-bit
register initialized to 0xFFFF; for each input byte in order, XOR the byte
shifted left 8 bits into the register, then 8 rounds of
(bit 15 set: shift left and XOR 0x1021, else shift left), masking to 16 bits
after every round; the final register value is the checksum.
-/

/-- Reference round (specification wording: test bit 15, mask to 16 bits). -/
def refRound (r : Nat) : Nat :=
  (if r.testBit 15 then (r <<< 1) ^^^ 0x1021 else r <<< 1) % 65536

/-- Reference absorption of one input byte. -/
def refAbsorb (r b : Nat) : Nat :=
  refRound^[8] (r ^^^ (b <<< 8))

/-- Reference register run over the remaining input bytes. -/
def refRun : Nat → List Nat → Nat
  | r, [] => r
  | r, b :: rest => refRun (refAbsorb r b) rest

/-- The CRC-16 reference definition, as the specification states it. -/
def crc16_reference (data : List Nat) : Nat :=
  refRun 0xFFFF data

/-- The code's round and the reference round agree. -/
theorem crcRound_eq_refRound (r : Nat) : crcRound r = refRound r := by
  unfold crcRound refRound
  rw [show (0x8000 : Nat) = 2 ^ 15 by norm_num, Nat.and_two_pow, ← and_mask16]
  cases htb : r.testBit 15 with
  | false => simp [htb]
  | true => simp [htb]

/-- The code's 8 rounds and the reference's 8 iterations agree. -/
theorem crcRounds_eq_iterate (n : Nat) : ∀ r, crcRounds n r = refRound^[n] r := by
  induction n with
  | zero => intro r; rfl
  | succ m ih =>
    intro r
    rw [show m + 1 = m.succ from rfl, Function.iterate_succ_apply]
    unfold crcRounds
    rw [ih (crcRound r), crcRound_eq_refRound]

/-- The code's per-byte update and the reference absorption agree. -/
theorem crcStep_eq_refAbsorb (r b : Nat) : crcStep r b = refAbsorb r b := by
  unfold crcStep refAbsorb
  exact crcRounds_eq_iterate 8 _

/-- Folding the code's update is the reference run. -/
theorem crcFold_eq_refRun (data : List Nat) : ∀ r, data.foldl crcStep r = refRun r data := by
  induction data with
  | nil => intro r; rfl
  | cons b bs ih =>
    intro r
    unfold refRun
    rw [List.foldl_cons, ih (crcStep r b), crcStep_eq_refAbsorb]

/-- C5 (confirmed): for every byte sequence, the checksum computed by the code
equals the CRC-16 reference definition (register 0xFFFF; per byte: XOR the
byte shifted left 8 into the register, then 8 rounds of shift-left with a
conditional XOR of 0x1021 when bit 15 is set, masked to 16 bits after every
round).  The plain variant's inlined loop computes exactly the reference over
its input bytes, and the seeded `calculate_crc` computes exactly the reference
over the crc_extra byte followed by the data bytes. -/
theorem C5_crc_matches_reference (data : List Nat) :
    crcPlain data = crc16_reference data ∧
    ∀ crc_extra : Nat,
      MAVLinkSender.calculate_crc data crc_extra = refRun 0xFFFF (crc_extra :: data) := by
  constructor
  · unfold crcPlain crc16_reference
    exact crcFold_eq_refRun data 0xFFFF
  · intro e
    unfold MAVLinkSender.calculate_crc refRun
    rw [crcFold_eq_refRun data _, crcStep_eq_refAbsorb]

/-!
Claims C7 and C10: seeded vs unseeded checksums differ.
-/

set_option maxRecDepth 100000 in
/-- Absorbing any single byte (zero included) moves the register off its
0xFFFF initial value: checked exhaustively over all 256 byte values. -/
theorem seed_moves_register : ∀ e < 256, crcStep 0xFFFF e ≠ 0xFFFF := by decide

/-- C7 (confirmed): for every byte sequence and every nonzero crc_extra byte,
the seeded checksum (which absorbs crc_extra through the per-byte update
before the data bytes) differs from the unseeded checksum of the same bytes. -/
theorem C7_seeded_differs (data : List Nat) (hdata : ∀ b ∈ data, b < 256)
    (crc_extra : Nat) (hlt : crc_extra < 256) (hne : crc_extra ≠ 0) :
    MAVLinkSender.calculate_crc data crc_extra ≠ crcPlain data := by
  intro heq
  unfold MAVLinkSender.calculate_crc crcPlain at heq
  have hinit := crcFold_inj data hdata _ _ (crcStep_lt 0xFFFF crc_extra)
    (by norm_num) heq
  exact seed_moves_register crc_extra hlt hinit

/-- Witness for C7 at a concrete input. -/
theorem C7_seeded_differs_witness :
    MAVLinkSender.calculate_crc [7] 50 ≠ crcPlain [7] :=
  C7_seeded_differs [7] (by decide) 50 (by decide) (by decide)

/-- C10 (confirmed): even with crc_extra = 0 the seeded checksum differs from
the unseeded checksum of the same byte sequence, because absorbing the zero
seed byte already moves the register away from 0xFFFF and the per-byte update
is injective in the register state. -/
theorem C10_zero_seed_differs (data : List Nat) (hdata : ∀ b ∈ data, b < 256) :
    MAVLinkSender.calculate_crc data 0 ≠ crcPlain data ∧ crcStep 0xFFFF 0 ≠ 0xFFFF := by
  refine ⟨?_, seed_moves_register 0 (by norm_num)⟩
  intro heq
  unfold MAVLinkSender.calculate_crc crcPlain at heq
  have hinit := crcFold_inj data hdata _ _ (crcStep_lt 0xFFFF 0) (by norm_num) heq
  exact seed_moves_register 0 (by norm_num) hinit

/-- Witness for C10 at a concrete input. -/
theorem C10_zero_seed_differs_witness :
    MAVLinkSender.calculate_crc [5] 0 ≠ crcPlain [5] ∧ crcStep 0xFFFF 0 ≠ 0xFFFF :=
  C10_zero_seed_differs [5] (by decide)

/-!
Claim C6: the crc_extra selection.
-/

/-- C6 (confirmed): the crc_extra byte is 50/124/39/104/142/83/170 for message
IDs 0/1/30/33/74/253/251, `(id & 0xFF) XOR ((id >> 8) & 0xFF)` for every ID at
or above 50000, and 0 for every other ID. -/
theorem C6_crc_extra_table :
    (MAVLinkSender.crcExtraOf 0 = 50 ∧ MAVLinkSender.crcExtraOf 1 = 124 ∧
     MAVLinkSender.crcExtraOf 30 = 39 ∧ MAVLinkSender.crcExtraOf 33 = 104 ∧
     MAVLinkSender.crcExtraOf 74 = 142 ∧ MAVLinkSender.crcExtraOf 253 = 83 ∧
     MAVLinkSender.crcExtraOf 251 = 170) ∧
    (∀ id : Nat, 50000 ≤ id →
      MAVLinkSender.crcExtraOf id = (id &&& 0xFF) ^^^ ((id >>> 8) &&& 0xFF)) ∧
    (∀ id : Nat, id < 50000 → id ≠ 0 → id ≠ 1 → id ≠ 30 → id ≠ 33 → id ≠ 74 →
      id ≠ 253 → id ≠ 251 → MAVLinkSender.crcExtraOf id = 0) := by
  refine ⟨by decide, ?_, ?_⟩
  · intro id hid
    unfold MAVLinkSender.crcExtraOf
    rw [if_neg (by omega)]
  · intro id hlt h0 h1 h30 h33 h74 h253 h251
    unfold MAVLinkSender.crcExtraOf
    rw [if_pos hlt]
    unfold MAVLinkSender.get_standard_crc_extra MAVLinkSender.crc_extras
    have e0 : (id == 0) = false := by simpa using h0
    have e1 : (id == 1) = false := by simpa using h1
    have e30 : (id == 30) = false := by simpa using h30
    have e33 : (id == 33) = false := by simpa using h33
    have e74 : (id == 74) = false := by simpa using h74
    have e253 : (id == 253) = false := by simpa using h253
    have e251 : (id == 251) = false := by simpa using h251
    simp [List.lookup, e0, e1, e30, e33, e74, e253, e251]

/-- Witness for C6's quantified parts at concrete inputs. -/
theorem C6_crc_extra_table_witness :
    MAVLinkSender.crcExtraOf 50001 = (50001 &&& 0xFF) ^^^ ((50001 >>> 8) &&& 0xFF) ∧
    MAVLinkSender.crcExtraOf 2 = 0 :=
  ⟨C6_crc_extra_table.2.1 50001 (by norm_num),
   C6_crc_extra_table.2.2 2 (by norm_num) (by norm_num) (by norm_num) (by norm_num)
     (by norm_num) (by norm_num) (by norm_num) (by norm_num)⟩

/-!
Claim C1: which bytes the frame checksum is computed over.
The code CRCs `header[1:] + payload`, but `header` is the 10-byte header that
never contained the start byte, so the slice drops the payloadLength byte:
only 9 of the 10 header bytes are covered.
-/

/-- The 16-bit checksum stored (little-endian) in the last two bytes of a
packet. -/
def packetCrc (pkt : List Nat) : Option Nat :=
  match pkt.reverse with
  | hi :: lo :: _ => some (lo + 256 * hi)
  | _ => none

set_option maxRecDepth 100000 in
/-- C1 (code bug, evaluated at the failing input): for a message with ID 0,
one uint8 field of value 7, sender (100, 190) and sequence 0 — header bytes
`[1,0,0,0,100,190,0,0,0,0]`, payload `[7]` — both variants store a checksum
computed over only the last 9 header bytes plus payload,
`[0,0,0,100,190,0,0,0,0,7]`, and that value differs from the checksum over all
10 header bytes plus payload, `[1,0,0,0,100,190,0,0,0,0,7]`, which is what the
claim (and the code's own comment) says is covered. -/
theorem C1_crc_input_drops_length_byte :
    ((SimpleMAVLinkGenerator.create_mavlink_packet ⟨100, 190, 0⟩ 0
        ⟨"M", [⟨"x", "uint8"⟩]⟩ [("x", PyVal.int 7)]).1.bind packetCrc
      = some (crcPlain [0, 0, 0, 100, 190, 0, 0, 0, 0, 7])) ∧
    crcPlain [0, 0, 0, 100, 190, 0, 0, 0, 0, 7]
      ≠ crcPlain [1, 0, 0, 0, 100, 190, 0, 0, 0, 0, 7] ∧
    ((MAVLinkSender.create_mavlink_packet ⟨100, 190, 0⟩ 0
        ⟨"M", [⟨"x", "uint8"⟩]⟩ [("x", PyVal.int 7)]).1.bind packetCrc
      = some (MAVLinkSender.calculate_crc [0, 0, 0, 100, 190, 0, 0, 0, 0, 7] 50)) ∧
    MAVLinkSender.calculate_crc [0, 0, 0, 100, 190, 0, 0, 0, 0, 7] 50
      ≠ MAVLinkSender.calculate_crc [1, 0, 0, 0, 100, 190, 0, 0, 0, 0, 7] 50 := by
  decide

/-!
Claim C2: frame length.  Infrastructure: byte width and `struct` range of each
format character, and the length of a successfully packed payload.
-/

/-- Byte width of each `struct` format character used by the chain. -/
def fmtWidth : Fmt → Nat
  | .B => 1 | .b => 1 | .c => 1
  | .H => 2 | .h => 2
  | .I => 4 | .i => 4 | .f => 4
  | .Q => 8 | .q => 8 | .d => 8

/-- The integer range `struct.pack` enforces for each integer format
character (`none` for the float and char formats). -/
def fmtBounds : Fmt → Option (Int × Int)
  | .B => some (0, 255)
  | .b => some (-128, 127)
  | .H => some (0, 65535)
  | .h => some (-32768, 32767)
  | .I => some (0, 4294967295)
  | .i => some (-2147483648, 2147483647)
  | .Q => some (0, 18446744073709551615)
  | .q => some (-9223372036854775808, 9223372036854775807)
  | .f => none
  | .d => none
  | .c => none

/-- A value is in range for a format: integer formats take an integer within
the `struct` bounds; for the float and char formats, exactly the values the
packer accepts. -/
def valueFits (fmt : Fmt) (v : PyVal) : Bool :=
  match fmtBounds fmt with
  | some (lo, hi) =>
    match v with
    | .int i => decide (lo ≤ i ∧ i ≤ hi)
    | .str _ => false
  | none => (packVal fmt v).isSome

/-- A successful float pack has the format's byte width. -/
theorem packFloat_length (exBits manBits : Nat) (i : Int) (bs : List Nat)
    (h : packFloat exBits manBits i = some bs) : bs.length = (1 + exBits + manBits) / 8 := by
  unfold packFloat at h
  cases hb : packFloatBits exBits manBits i with
  | none => rw [hb] at h; exact absurd h (by simp)
  | some bits =>
    rw [hb] at h
    have h2 : some (natLE ((1 + exBits + manBits) / 8) bits) = some bs := h
    injection h2 with h2
    rw [← h2]
    exact natLE_length _ _

/-- A successful char pack is a single byte. -/
theorem charByte_length (s : String) (bs : List Nat) (h : charByte s = some bs) :
    bs.length = 1 := by
  unfold charByte at h
  split at h
  · exact absurd h (by simp)
  · split at h
    · injection h with h
      subst h
      rfl
    · exact absurd h (by simp)

/-- An in-range integer packs to exactly its declared width. -/
theorem packInt_fits (lo hi : Int) (w : Nat) (i : Int) (h : lo ≤ i ∧ i ≤ hi) :
    packInt lo hi w (PyVal.int i) = some (intBytes w i) := by
  unfold packInt
  exact if_pos h

/-- An in-range value packs successfully to exactly the format's width. -/
theorem packVal_fits (fmt : Fmt) (v : PyVal) (h : valueFits fmt v = true) :
    ∃ bs, packVal fmt v = some bs ∧ bs.length = fmtWidth fmt := by
  cases fmt <;> cases v <;>
    simp only [valueFits, fmtBounds, decide_eq_true_eq, Bool.false_eq_true] at h
  case B.int i => exact ⟨_, packInt_fits 0 255 1 i h, intBytes_length 1 i⟩
  case b.int i => exact ⟨_, packInt_fits (-128) 127 1 i h, intBytes_length 1 i⟩
  case H.int i => exact ⟨_, packInt_fits 0 65535 2 i h, intBytes_length 2 i⟩
  case h.int i => exact ⟨_, packInt_fits (-32768) 32767 2 i h, intBytes_length 2 i⟩
  case I.int i => exact ⟨_, packInt_fits 0 4294967295 4 i h, intBytes_length 4 i⟩
  case i.int i => exact ⟨_, packInt_fits (-2147483648) 2147483647 4 i h, intBytes_length 4 i⟩
  case Q.int i => exact ⟨_, packInt_fits 0 18446744073709551615 8 i h, intBytes_length 8 i⟩
  case q.int i =>
    exact ⟨_, packInt_fits (-9223372036854775808) 9223372036854775807 8 i h,
      intBytes_length 8 i⟩
  case f.int i =>
    obtain ⟨bs, hbs⟩ := Option.isSome_iff_exists.mp h
    exact ⟨bs, hbs, (packFloat_length 8 23 i bs hbs).trans rfl⟩
  case f.str s => exact absurd h (by simp [packVal])
  case d.int i =>
    obtain ⟨bs, hbs⟩ := Option.isSome_iff_exists.mp h
    exact ⟨bs, hbs, (packFloat_length 11 52 i bs hbs).trans rfl⟩
  case d.str s => exact absurd h (by simp [packVal])
  case c.int i =>
    obtain ⟨bs, hbs⟩ := Option.isSome_iff_exists.mp h
    exact ⟨bs, hbs, charByte_length _ bs hbs⟩
  case c.str s =>
    obtain ⟨bs, hbs⟩ := Option.isSome_iff_exists.mp h
    exact ⟨bs, hbs, charByte_length _ bs hbs⟩

/-- The byte width a field's raw type string gets from the `elif` chain
(0 when the chain does not match and the field is skipped). -/
def codeWidth (t : String) : Nat :=
  match matchFmt t with
  | some fmt => fmtWidth fmt
  | none => 0

/-- Total payload width of a field list under the chain's widths. -/
def widthSum (fields : List FieldSpec) : Nat :=
  (fields.map fun f => codeWidth f.ftype).sum

/-- A field list of recognized types with in-range values packs successfully,
with total length `widthSum`. -/
theorem packPayload_fits (fields : List FieldSpec) (data : ValueMap)
    (h : ∀ f ∈ fields, ∃ fmt, matchFmt f.ftype = some fmt ∧
      valueFits fmt (getValue data f.name) = true) :
    ∃ payload, packPayload fields data = some payload ∧ payload.length = widthSum fields := by
  induction fields with
  | nil => exact ⟨[], rfl, rfl⟩
  | cons f fs ih =>
    obtain ⟨fmt, hm, hv⟩ := h f (List.mem_cons_self f fs)
    obtain ⟨bs, hbs, hlen⟩ := packVal_fits fmt _ hv
    obtain ⟨rest, hrest, hrlen⟩ := ih (fun g hg => h g (List.mem_cons_of_mem f hg))
    refine ⟨bs ++ rest, ?_, ?_⟩
    · have hpf : packField f data = some bs := by
        unfold packField
        rw [hm]
        exact hbs
      unfold packPayload
      rw [hpf, hrest]
    · have hw : widthSum (f :: fs) = fmtWidth fmt + widthSum fs := by
        simp only [widthSum, List.map_cons, List.sum_cons, codeWidth, hm]
      rw [List.length_append, hlen, hrlen, hw]

/-- Wire width table exactly as claim C2 states it (type names taken as the
literal wireType strings, with float32 -> 4 and float64 -> 8). -/
def claimWireWidth : String → Option Nat
  | "uint8" => some 1
  | "int8" => some 1
  | "char" => some 1
  | "uint16" => some 2
  | "int16" => some 2
  | "uint32" => some 4
  | "int32" => some 4
  | "float32" => some 4
  | "uint64" => some 8
  | "int64" => some 8
  | "float64" => some 8
  | _ => none

set_option maxRecDepth 100000 in
/-- Counterexample to C2: a message with a single `float64` field and an
in-range value.  The claim's width table gives 8 for `float64` (expected frame
length 13 + 8 = 21), but the encoder's `elif` chain tests `'float' in
field_type` before `'double'`, so `float64` is packed as a 4-byte float and
the produced frame is 17 bytes long. -/
theorem C2_counterexample :
    claimWireWidth "float64" = some 8 ∧
    ((SimpleMAVLinkGenerator.create_mavlink_packet ⟨100, 190, 0⟩ 0
        ⟨"M", [⟨"x", "float64"⟩]⟩ [("x", PyVal.int 0)]).1.map List.length = some 17) ∧
    (17 : Nat) ≠ 13 + 8 := by
  decide

/-- C2 as amended: for every message definition whose fields all carry
recognized wire types, every value map with in-range values, total payload at
most 255 bytes, and sender IDs and sequence below 256, encode produces a frame
whose length is `13 + widthSum`, where the width of a type containing
`float` — `float64` included — is 4 and only a type containing `double` (and
none of the integer tokens) gets 8. -/
theorem C2_amended (st : GenState) (mid : Nat) (msg : MsgInfo) (data : ValueMap)
    (hrec : ∀ f ∈ msg.fields, ∃ fmt, matchFmt f.ftype = some fmt ∧
      valueFits fmt (getValue data f.name) = true)
    (hlen : widthSum msg.fields ≤ 255) (hs : st.sequence ≤ 255)
    (ha : st.system_id ≤ 255) (hb : st.component_id ≤ 255) :
    ∃ pkt st2, SimpleMAVLinkGenerator.create_mavlink_packet st mid msg data = (some pkt, st2) ∧
      pkt.length = 13 + widthSum msg.fields := by
  obtain ⟨payload, hp, hplen⟩ := packPayload_fits msg.fields data hrec
  refine ⟨_, _, SMG_create_some st mid msg data payload hp (hplen ▸ hlen) hs ha hb, ?_⟩
  simp only [List.length_cons, List.length_append, headerBytes_length, natLE_length]
  omega

/-- Witness for C2's amended statement at a concrete input. -/
theorem C2_amended_witness :
    ∃ pkt st2,
      SimpleMAVLinkGenerator.create_mavlink_packet ⟨100, 190, 0⟩ 0
        ⟨"M", [⟨"x", "uint8"⟩]⟩ [("x", PyVal.int 7)] = (some pkt, st2) ∧
      pkt.length = 13 + widthSum [⟨"x", "uint8"⟩] := by
  refine C2_amended ⟨100, 190, 0⟩ 0 ⟨"M", [⟨"x", "uint8"⟩]⟩ [("x", PyVal.int 7)]
    ?_ (by decide) (by decide) (by decide) (by decide)
  intro f hf
  have : f = ⟨"x", "uint8"⟩ := by
    simpa using hf
  subst this
  exact ⟨Fmt.B, by decide, by decide⟩

/-!
Claim C3: missing field values.
-/

/-- Prepending a binding for a name that is absent from the data dict changes
no lookup: the absent name already resolved to the default integer 0. -/
theorem getValue_absent (data : ValueMap) (nm : String)
    (hmiss : List.lookup nm data = none) (n : String) :
    getValue ((nm, PyVal.int 0) :: data) n = getValue data n := by
  unfold getValue
  by_cases hn : n = nm
  · subst hn
    rw [hmiss]
    simp [List.lookup]
  · have hb : (n == nm) = false := by simpa using hn
    simp [List.lookup, hb]

/-- The payload depends on the data dict only through `getValue`. -/
theorem packPayload_congr (fields : List FieldSpec) (d1 d2 : ValueMap)
    (h : ∀ n, getValue d1 n = getValue d2 n) :
    packPayload fields d1 = packPayload fields d2 := by
  induction fields with
  | nil => rfl
  | cons f fs ih =>
    have hf : packField f d1 = packField f d2 := by
      unfold packField
      rw [h f.name]
    unfold packPayload
    rw [hf, ih]

/-- Both builders depend on the data dict only through the packed payload. -/
theorem create_congr (st : GenState) (mid : Nat) (msg : MsgInfo) (d1 d2 : ValueMap)
    (h : packPayload msg.fields d1 = packPayload msg.fields d2) :
    SimpleMAVLinkGenerator.create_mavlink_packet st mid msg d1
      = SimpleMAVLinkGenerator.create_mavlink_packet st mid msg d2 ∧
    MAVLinkSender.create_mavlink_packet st mid msg d1
      = MAVLinkSender.create_mavlink_packet st mid msg d2 := by
  constructor
  · unfold SimpleMAVLinkGenerator.create_mavlink_packet
    rw [h]
  · unfold MAVLinkSender.create_mavlink_packet
    rw [h]

/-- Counterexample to C3: a message with one declared uint8 field and an empty
value map.  The claim says encoding fails with a MissingFieldValue error and
that no frame with a substituted default is emitted; the code instead succeeds
(`data.get(field_name, 0)`) and the emitted frame carries the substituted zero
as its payload byte (index 11, right after the 10-byte header and the start
byte). -/
theorem C3_counterexample :
    ((SimpleMAVLinkGenerator.create_mavlink_packet ⟨100, 190, 0⟩ 0
        ⟨"M", [⟨"x", "uint8"⟩]⟩ []).1.isSome = true) ∧
    ((SimpleMAVLinkGenerator.create_mavlink_packet ⟨100, 190, 0⟩ 0
        ⟨"M", [⟨"x", "uint8"⟩]⟩ []).1.bind (fun p => p[11]?) = some 0) := by
  decide

/-- C3 as amended: a field declared in the message definition whose name is
absent from the value map is not an error — the encoder substitutes the
default value 0 for it, and both variants behave exactly as if the value map
had carried an explicit 0 for that field. -/
theorem C3_amended (st : GenState) (mid : Nat) (msg : MsgInfo) (data : ValueMap)
    (f : FieldSpec) (hf : f ∈ msg.fields) (hmiss : List.lookup f.name data = none) :
    SimpleMAVLinkGenerator.create_mavlink_packet st mid msg data
      = SimpleMAVLinkGenerator.create_mavlink_packet st mid msg ((f.name, PyVal.int 0) :: data)
    ∧ MAVLinkSender.create_mavlink_packet st mid msg data
      = MAVLinkSender.create_mavlink_packet st mid msg ((f.name, PyVal.int 0) :: data) :=
  create_congr st mid msg data ((f.name, PyVal.int 0) :: data)
    (packPayload_congr msg.fields data _
      (fun n => (getValue_absent data f.name hmiss n).symm))

/-- Witness for C3's amended statement at a concrete input. -/
theorem C3_amended_witness :
    SimpleMAVLinkGenerator.create_mavlink_packet ⟨100, 190, 0⟩ 0 ⟨"M", [⟨"x", "uint8"⟩]⟩ []
      = SimpleMAVLinkGenerator.create_mavlink_packet ⟨100, 190, 0⟩ 0 ⟨"M", [⟨"x", "uint8"⟩]⟩
          [("x", PyVal.int 0)]
    ∧ MAVLinkSender.create_mavlink_packet ⟨100, 190, 0⟩ 0 ⟨"M", [⟨"x", "uint8"⟩]⟩ []
      = MAVLinkSender.create_mavlink_packet ⟨100, 190, 0⟩ 0 ⟨"M", [⟨"x", "uint8"⟩]⟩
          [("x", PyVal.int 0)] :=
  C3_amended ⟨100, 190, 0⟩ 0 ⟨"M", [⟨"x", "uint8"⟩]⟩ [] ⟨"x", "uint8"⟩
    (by decide) rfl

/-!
Claim C4: unrecognized wire types.
-/

/-- Counterexample to C4: a field whose type string `banana` matches none of
the chain's tokens.  The claim says encoding fails with an
UnsupportedFieldType error; the code instead succeeds, silently skipping the
field, and emits a 13-byte frame (empty payload) that simply omits the
field's bytes. -/
theorem C4_counterexample :
    ((SimpleMAVLinkGenerator.create_mavlink_packet ⟨100, 190, 0⟩ 0
        ⟨"M", [⟨"x", "banana"⟩]⟩ [("x", PyVal.int 5)]).1.isSome = true) ∧
    ((SimpleMAVLinkGenerator.create_mavlink_packet ⟨100, 190, 0⟩ 0
        ⟨"M", [⟨"x", "banana"⟩]⟩ [("x", PyVal.int 5)]).1.map List.length = some 13) := by
  decide

/-- Skipping an unrecognized field leaves the packed payload unchanged, at
any position in the field list. -/
theorem packPayload_skip (fn ft : String) (data : ValueMap)
    (hunrec : matchFmt ft = none) :
    ∀ fs1 fs2 : List FieldSpec,
      packPayload (fs1 ++ ⟨fn, ft⟩ :: fs2) data = packPayload (fs1 ++ fs2) data := by
  intro fs1
  induction fs1 with
  | nil =>
    intro fs2
    have hskip : packField ⟨fn, ft⟩ data = some [] := by
      unfold packField
      rw [hunrec]
    have hstep : packPayload (⟨fn, ft⟩ :: fs2) data =
        match packField ⟨fn, ft⟩ data, packPayload fs2 data with
        | some bs, some rest => some (bs ++ rest)
        | _, _ => none := rfl
    rw [List.nil_append, List.nil_append, hstep, hskip]
    cases hrest : packPayload fs2 data with
    | none => rfl
    | some rest => simp
  | cons g gs ih =>
    intro fs2
    have h1 : packPayload ((g :: gs) ++ ⟨fn, ft⟩ :: fs2) data =
        match packField g data, packPayload (gs ++ ⟨fn, ft⟩ :: fs2) data with
        | some bs, some rest => some (bs ++ rest)
        | _, _ => none := rfl
    have h2 : packPayload ((g :: gs) ++ fs2) data =
        match packField g data, packPayload (gs ++ fs2) data with
        | some bs, some rest => some (bs ++ rest)
        | _, _ => none := rfl
    rw [h1, h2, ih fs2]

/-- C4 as amended: a field whose wireType contains none of the recognized
tokens is silently skipped, wherever it sits in the declared field list and in
both variants: the encoder behaves exactly as if the field were not declared
at all, so its bytes are simply absent from an otherwise successfully built
frame. -/
theorem C4_amended (st : GenState) (mid : Nat) (mname fn ft : String)
    (fs1 fs2 : List FieldSpec) (data : ValueMap) (hunrec : matchFmt ft = none) :
    SimpleMAVLinkGenerator.create_mavlink_packet st mid ⟨mname, fs1 ++ ⟨fn, ft⟩ :: fs2⟩ data
      = SimpleMAVLinkGenerator.create_mavlink_packet st mid ⟨mname, fs1 ++ fs2⟩ data
    ∧ MAVLinkSender.create_mavlink_packet st mid ⟨mname, fs1 ++ ⟨fn, ft⟩ :: fs2⟩ data
      = MAVLinkSender.create_mavlink_packet st mid ⟨mname, fs1 ++ fs2⟩ data := by
  have hpp := packPayload_skip fn ft data hunrec fs1 fs2
  constructor
  · unfold SimpleMAVLinkGenerator.create_mavlink_packet
    rw [show (⟨mname, fs1 ++ ⟨fn, ft⟩ :: fs2⟩ : MsgInfo).fields
        = fs1 ++ ⟨fn, ft⟩ :: fs2 from rfl,
      show (⟨mname, fs1 ++ fs2⟩ : MsgInfo).fields = fs1 ++ fs2 from rfl, hpp]
  · unfold MAVLinkSender.create_mavlink_packet
    rw [show (⟨mname, fs1 ++ ⟨fn, ft⟩ :: fs2⟩ : MsgInfo).fields
        = fs1 ++ ⟨fn, ft⟩ :: fs2 from rfl,
      show (⟨mname, fs1 ++ fs2⟩ : MsgInfo).fields = fs1 ++ fs2 from rfl, hpp]

/-- Witness for C4's amended statement at a concrete input, with the
unrecognized field in the middle of the field list. -/
theorem C4_amended_witness :
    SimpleMAVLinkGenerator.create_mavlink_packet ⟨100, 190, 0⟩ 0
        ⟨"M", [⟨"a", "uint8"⟩, ⟨"x", "banana"⟩, ⟨"b", "uint8"⟩]⟩
        [("a", PyVal.int 1), ("b", PyVal.int 2)]
      = SimpleMAVLinkGenerator.create_mavlink_packet ⟨100, 190, 0⟩ 0
          ⟨"M", [⟨"a", "uint8"⟩, ⟨"b", "uint8"⟩]⟩
          [("a", PyVal.int 1), ("b", PyVal.int 2)]
    ∧ MAVLinkSender.create_mavlink_packet ⟨100, 190, 0⟩ 0
        ⟨"M", [⟨"a", "uint8"⟩, ⟨"x", "banana"⟩, ⟨"b", "uint8"⟩]⟩
        [("a", PyVal.int 1), ("b", PyVal.int 2)]
      = MAVLinkSender.create_mavlink_packet ⟨100, 190, 0⟩ 0
          ⟨"M", [⟨"a", "uint8"⟩, ⟨"b", "uint8"⟩]⟩
          [("a", PyVal.int 1), ("b", PyVal.int 2)] :=
  C4_amended ⟨100, 190, 0⟩ 0 "M" "x" "banana" [⟨"a", "uint8"⟩] [⟨"b", "uint8"⟩]
    [("a", PyVal.int 1), ("b", PyVal.int 2)] (by decide)

/-!
Claim C9: out-of-range numeric values abort the build.
-/

/-- An out-of-range integer for an integer format character packs to `none`
(`struct.error` in Python). -/
theorem packVal_out (fmt : Fmt) (lo hi : Int) (hbd : fmtBounds fmt = some (lo, hi))
    (v : Int) (hout : v < lo ∨ hi < v) : packVal fmt (PyVal.int v) = none := by
  cases fmt with
  | B =>
    simp only [fmtBounds, Option.some.injEq, Prod.mk.injEq] at hbd
    obtain ⟨rfl, rfl⟩ := hbd
    show (if (0 : Int) ≤ v ∧ v ≤ 255 then some (intBytes 1 v) else none) = none
    rw [if_neg (by omega)]
  | b =>
    simp only [fmtBounds, Option.some.injEq, Prod.mk.injEq] at hbd
    obtain ⟨rfl, rfl⟩ := hbd
    show (if (-128 : Int) ≤ v ∧ v ≤ 127 then some (intBytes 1 v) else none) = none
    rw [if_neg (by omega)]
  | H =>
    simp only [fmtBounds, Option.some.injEq, Prod.mk.injEq] at hbd
    obtain ⟨rfl, rfl⟩ := hbd
    show (if (0 : Int) ≤ v ∧ v ≤ 65535 then some (intBytes 2 v) else none) = none
    rw [if_neg (by omega)]
  | h =>
    simp only [fmtBounds, Option.some.injEq, Prod.mk.injEq] at hbd
    obtain ⟨rfl, rfl⟩ := hbd
    show (if (-32768 : Int) ≤ v ∧ v ≤ 32767 then some (intBytes 2 v) else none) = none
    rw [if_neg (by omega)]
  | I =>
    simp only [fmtBounds, Option.some.injEq, Prod.mk.injEq] at hbd
    obtain ⟨rfl, rfl⟩ := hbd
    show (if (0 : Int) ≤ v ∧ v ≤ 4294967295 then some (intBytes 4 v) else none) = none
    rw [if_neg (by omega)]
  | i =>
    simp only [fmtBounds, Option.some.injEq, Prod.mk.injEq] at hbd
    obtain ⟨rfl, rfl⟩ := hbd
    show (if (-2147483648 : Int) ≤ v ∧ v ≤ 2147483647 then some (intBytes 4 v) else none) = none
    rw [if_neg (by omega)]
  | Q =>
    simp only [fmtBounds, Option.some.injEq, Prod.mk.injEq] at hbd
    obtain ⟨rfl, rfl⟩ := hbd
    show (if (0 : Int) ≤ v ∧ v ≤ 18446744073709551615 then some (intBytes 8 v) else none) = none
    rw [if_neg (by omega)]
  | q =>
    simp only [fmtBounds, Option.some.injEq, Prod.mk.injEq] at hbd
    obtain ⟨rfl, rfl⟩ := hbd
    show (if (-9223372036854775808 : Int) ≤ v ∧ v ≤ 9223372036854775807 then some (intBytes 8 v) else none) = none
    rw [if_neg (by omega)]
  | f => exact absurd hbd (by simp [fmtBounds])
  | d => exact absurd hbd (by simp [fmtBounds])
  | c => exact absurd hbd (by simp [fmtBounds])

/-- A failing field makes the whole payload pack fail. -/
theorem packPayload_absorb_none (fields : List FieldSpec) (data : ValueMap)
    (f : FieldSpec) (hf : f ∈ fields) (hnone : packField f data = none) :
    packPayload fields data = none := by
  induction fields with
  | nil => cases hf
  | cons g gs ih =>
    have hstep : packPayload (g :: gs) data =
        match packField g data, packPayload gs data with
        | some bs, some rest => some (bs ++ rest)
        | _, _ => none := rfl
    rcases List.mem_cons.mp hf with rfl | hgs
    · rw [hstep, hnone]
    · cases hpg : packField g data with
      | none => rw [hstep, hpg]
      | some bs => rw [hstep, hpg, ih hgs]

/-- C9 (confirmed): when a declared field resolves to an integer format and
its supplied value does not fit the declared width, both variants fail
(`struct.error` caught, `None` returned) without emitting a frame and without
advancing the sequence counter; the value is never truncated into an emitted
frame. -/
theorem C9_out_of_range (st : GenState) (mid : Nat) (msg : MsgInfo) (data : ValueMap)
    (f : FieldSpec) (fmt : Fmt) (lo hi v : Int)
    (hf : f ∈ msg.fields) (hm : matchFmt f.ftype = some fmt)
    (hbd : fmtBounds fmt = some (lo, hi)) (hv : getValue data f.name = PyVal.int v)
    (hout : v < lo ∨ hi < v) :
    SimpleMAVLinkGenerator.create_mavlink_packet st mid msg data = (none, st) ∧
    MAVLinkSender.create_mavlink_packet st mid msg data = (none, st) := by
  have hfield : packField f data = none := by
    unfold packField
    rw [hm]
    show packVal fmt (getValue data f.name) = none
    rw [hv]
    exact packVal_out fmt lo hi hbd v hout
  have hpp := packPayload_absorb_none msg.fields data f hf hfield
  constructor
  · unfold SimpleMAVLinkGenerator.create_mavlink_packet
    rw [hpp]
  · unfold MAVLinkSender.create_mavlink_packet
    rw [hpp]

/-- Witness for C9 at a concrete input: a uint8 field receiving 300. -/
theorem C9_out_of_range_witness :
    SimpleMAVLinkGenerator.create_mavlink_packet ⟨100, 190, 0⟩ 0
        ⟨"M", [⟨"x", "uint8"⟩]⟩ [("x", PyVal.int 300)] = (none, ⟨100, 190, 0⟩) ∧
    MAVLinkSender.create_mavlink_packet ⟨100, 190, 0⟩ 0
        ⟨"M", [⟨"x", "uint8"⟩]⟩ [("x", PyVal.int 300)] = (none, ⟨100, 190, 0⟩) :=
  C9_out_of_range ⟨100, 190, 0⟩ 0 ⟨"M", [⟨"x", "uint8"⟩]⟩ [("x", PyVal.int 300)]
    ⟨"x", "uint8"⟩ Fmt.B 0 255 300 (by decide) (by decide) rfl rfl (by omega)

/-!
Claim C8: the sequence counter.
-/

/-- A successful plain-variant build writes the pre-call sequence into byte 4
of the packet and leaves the post-call counter at `(seq + 1) % 256`. -/
theorem SMG_seq_byte (mid : Nat) (msg : MsgInfo) (data : ValueMap) (st : GenState)
    (pkt : List Nat) (st2 : GenState)
    (h : SimpleMAVLinkGenerator.create_mavlink_packet st mid msg data = (some pkt, st2)) :
    pkt[4]? = some st.sequence ∧ st2.sequence = (st.sequence + 1) % 256 := by
  unfold SimpleMAVLinkGenerator.create_mavlink_packet at h
  split at h
  · simp at h
  · dsimp only at h
    split at h
    · rw [Prod.mk.injEq] at h
      obtain ⟨h1, h2⟩ := h
      injection h1 with h1
      constructor
      · rw [← h1]
        simp [headerBytes, List.cons_append]
      · rw [← h2]
        exact and_mask8 (st.sequence + 1)
    · simp at h

/-- A successful seeded-variant build writes the pre-call sequence into byte 4
of the packet and leaves the post-call counter at `(seq + 1) % 256`. -/
theorem MAV_seq_byte (mid : Nat) (msg : MsgInfo) (data : ValueMap) (st : GenState)
    (pkt : List Nat) (st2 : GenState)
    (h : MAVLinkSender.create_mavlink_packet st mid msg data = (some pkt, st2)) :
    pkt[4]? = some st.sequence ∧ st2.sequence = (st.sequence + 1) % 256 := by
  unfold MAVLinkSender.create_mavlink_packet at h
  split at h
  · simp at h
  · dsimp only at h
    split at h
    · rw [Prod.mk.injEq] at h
      obtain ⟨h1, h2⟩ := h
      injection h1 with h1
      constructor
      · rw [← h1]
        simp [headerBytes, List.cons_append]
      · rw [← h2]
        exact and_mask8 (st.sequence + 1)
    · simp at h

/-- The generator state after `n` successive plain-variant calls. -/
def chainState (mid : Nat) (msg : MsgInfo) (data : ValueMap) : Nat → GenState → GenState
  | 0, st => st
  | n + 1, st =>
    (SimpleMAVLinkGenerator.create_mavlink_packet (chainState mid msg data n st) mid msg data).2

/-- The sequence byte emitted by the `(n+1)`-st plain-variant call. -/
def seqByteAt (mid : Nat) (msg : MsgInfo) (data : ValueMap) (st : GenState) (n : Nat) :
    Option Nat :=
  ((SimpleMAVLinkGenerator.create_mavlink_packet (chainState mid msg data n st) mid msg data).1).bind
    (fun p => p[4]?)

/-- Under a packable payload and byte-sized sender IDs, `n` calls advance the
sequence to `(seq + n) % 256` and change nothing else. -/
theorem chainState_seq (mid : Nat) (msg : MsgInfo) (data : ValueMap) (payload : List Nat)
    (hp : packPayload msg.fields data = some payload) (hl : payload.length ≤ 255)
    (st : GenState) (ha : st.system_id ≤ 255) (hb : st.component_id ≤ 255)
    (hs : st.sequence ≤ 255) :
    ∀ n, chainState mid msg data n st = { st with sequence := (st.sequence + n) % 256 } := by
  intro n
  induction n with
  | zero =>
    show st = { st with sequence := (st.sequence + 0) % 256 }
    cases st with
    | mk a b c =>
      have hc : c ≤ 255 := hs
      have hz : (c + 0) % 256 = c := by omega
      show GenState.mk a b c = GenState.mk a b ((c + 0) % 256)
      rw [hz]
  | succ m ih =>
    show (SimpleMAVLinkGenerator.create_mavlink_packet (chainState mid msg data m st)
        mid msg data).2 = _
    rw [ih, SMG_create_some { st with sequence := (st.sequence + m) % 256 } mid msg data payload
      hp hl (by dsimp only; omega) ha hb]
    dsimp only
    have h2 : (st.sequence + m) % 256 + 1 &&& 255 = (st.sequence + (m + 1)) % 256 := by
      rw [and_mask8]
      omega
    rw [h2]

/-- C8 (confirmed): each successful build — in either variant — writes the
current sequence counter into the header's sequence byte (packet index 4) and
advances the counter by exactly one modulo 256; consequently, starting from a
fresh counter at 0, the `n`-th successive successful call emits sequence byte
`n % 256` (0, 1, ..., 255, 0, 1, ...), with no value skipped or repeated
within any window of 256 consecutive calls. -/
theorem C8_sequence_counter (mid : Nat) (msg : MsgInfo) (data : ValueMap) (st : GenState)
    (pkt : List Nat) (st2 : GenState) :
    (SimpleMAVLinkGenerator.create_mavlink_packet st mid msg data = (some pkt, st2) →
      pkt[4]? = some st.sequence ∧ st2.sequence = (st.sequence + 1) % 256) ∧
    (MAVLinkSender.create_mavlink_packet st mid msg data = (some pkt, st2) →
      pkt[4]? = some st.sequence ∧ st2.sequence = (st.sequence + 1) % 256) ∧
    (st.sequence = 0 →
      ∀ payload, packPayload msg.fields data = some payload → payload.length ≤ 255 →
        st.system_id ≤ 255 → st.component_id ≤ 255 →
        ∀ n, seqByteAt mid msg data st n = some (n % 256)) := by
  refine ⟨SMG_seq_byte mid msg data st pkt st2, MAV_seq_byte mid msg data st pkt st2, ?_⟩
  intro hs0 payload hp hl ha hb n
  unfold seqByteAt
  rw [chainState_seq mid msg data payload hp hl st ha hb (by omega) n]
  rw [SMG_create_some { st with sequence := (st.sequence + n) % 256 } mid msg data payload
    hp hl (by simp; omega) ha hb]
  simp [headerBytes, List.cons_append, hs0]

/-- Witness for C8 at a concrete input: the 260th call on a fresh encoder
state emits sequence byte 259 % 256 = 3. -/
theorem C8_sequence_counter_witness :
    seqByteAt 0 ⟨"M", []⟩ [] ⟨100, 190, 0⟩ 259 = some 3 := by
  have h := (C8_sequence_counter 0 ⟨"M", []⟩ [] ⟨100, 190, 0⟩ [] ⟨0, 0, 0⟩).2.2
    rfl [] rfl (by decide) (by decide) (by decide) 259
  simpa using h
